import Mathlib

/-!
# Verification of the Miss Bloom application form wizard

Shallow embedding of the multi-section form navigation and validation engine
of `src/components/ApplicationForm.tsx` (section list, per-section validation,
derived fields, the `handleNext` / `handlePrevious` / `handleSubmit` handlers,
and the navigation UI guards), together with the parts of `utils/formUtils.ts`
that the component imports.  `utils/formUtils.ts` itself is not part of the
source snapshot, so `countWords`, `calculateAge`, `isAgeInRange` and
`validateApplicationForm` are modelled from the specification (each such
definition carries a doc comment saying so).
-/

/-- An opaque user-selected binary asset (the core never decodes files). -/
structure AppFile where
  name : String
deriving DecidableEq, Repr

/-- The six photo slots of the form (`headShot1` … `additionalImage2`),
updated by `handleFileChange` through a computed key. -/
inductive PhotoField
  | headShot1 | headShot2 | bodyShot1 | bodyShot2 | additionalImage1 | additionalImage2
deriving DecidableEq, Repr

/-- The `ApplicationFormData` record from the component state (`useState` initialiser,
`ApplicationForm.tsx` lines 37–94).  String fields are kept individually; the
six photo slots are modelled as one function so that the dynamic-key update
`{ ...prev, [field]: files[0] }` is a function update. -/
structure ApplicationFormData where
  firstName : String
  middleName : String
  lastName : String
  fullName : String
  email : String
  phone : String
  homePhone : String
  country : String
  city : String
  street : String
  addressLine2 : String
  stateRegion : String
  zipCode : String
  experience : String
  education : String
  skills : String
  motivation : String
  goals : String
  strategy : String
  dateOfBirth : String
  age : String
  ethnicity : String
  representCountry : String
  alternateCountry : String
  bio : String
  socialMedia : String
  height : String
  weight : String
  bust : String
  waist : String
  hips : String
  dressSize : String
  shoeSize : String
  swimsuitSizeTop : String
  swimsuitSizeBottom : String
  schoolAttended : String
  fieldOfStudy : String
  highestEducation : String
  threeWords : String
  hobbies : String
  pageantExperience : String
  charity : String
  hearAboutUs : String
  photos : PhotoField → Option AppFile
  countryOverview : String
  culturalInfo : String
  isEligible : Bool
  hasValidPassport : Bool
  canTravel : Bool
  isGoodHealth : Bool
  willFollowRules : Bool

/-- The initial record (every string empty, no photos, all flags false). -/
def initFormData : ApplicationFormData where
  firstName := ""
  middleName := ""
  lastName := ""
  fullName := ""
  email := ""
  phone := ""
  homePhone := ""
  country := ""
  city := ""
  street := ""
  addressLine2 := ""
  stateRegion := ""
  zipCode := ""
  experience := ""
  education := ""
  skills := ""
  motivation := ""
  goals := ""
  strategy := ""
  dateOfBirth := ""
  age := ""
  ethnicity := ""
  representCountry := ""
  alternateCountry := ""
  bio := ""
  socialMedia := ""
  height := ""
  weight := ""
  bust := ""
  waist := ""
  hips := ""
  dressSize := ""
  shoeSize := ""
  swimsuitSizeTop := ""
  swimsuitSizeBottom := ""
  schoolAttended := ""
  fieldOfStudy := ""
  highestEducation := ""
  threeWords := ""
  hobbies := ""
  pageantExperience := ""
  charity := ""
  hearAboutUs := ""
  photos := fun _ => none
  countryOverview := ""
  culturalInfo := ""
  isEligible := false
  hasValidPassport := false
  canTravel := false
  isGoodHealth := false
  willFollowRules := false

/-- The `FormError` type from `utils/formUtils.ts` as used by the component:
a field identifier paired with a message. -/
structure FormError where
  field : String
  message : String
deriving DecidableEq, Repr

/-- One entry of the `formSections` array (`ApplicationForm.tsx` lines 21–33). -/
structure FormSection where
  id : String
  title : String
  badge : String
deriving DecidableEq, Repr

/-- The fixed ordered section list (`ApplicationForm.tsx` lines 21–33). -/
def formSections : List FormSection :=
  [ ⟨"eligibility", "Eligibility", "1"⟩,
    ⟨"contact", "Contact Information", "2"⟩,
    ⟨"personal", "Personal Details", "3"⟩,
    ⟨"background", "Background & Experience", "4"⟩,
    ⟨"motivation", "Motivation & Goals", "5"⟩,
    ⟨"business", "Business Plan", "6"⟩,
    ⟨"photos", "Photos", "7"⟩,
    ⟨"terms", "Terms & Conditions", "8"⟩,
    ⟨"profile", "Personal Profile", "9"⟩,
    ⟨"countryInfo", "Country Information", "10"⟩,
    ⟨"review", "Review & Submit", "11"⟩ ]

/-- JavaScript `Array.prototype.findIndex` over `formSections` by id:
index of the section, `-1` when absent. -/
def currentIndexOf (id : String) : Int :=
  match formSections.findIdx? (fun s => s.id = id) with
  | some i => (i : Int)
  | none => -1

/-- Modelled from the spec: `countWords` lives in the missing
`utils/formUtils.ts`.  Per §4.1 the count is the number of maximal sequences
of non-whitespace characters (runs of whitespace collapse, ends are trimmed).
`wordCountAux cs inWord` scans the characters left to right; `inWord` records
whether the previous character was part of a word. -/
def wordCountAux : List Char → Bool → Nat
  | [], _ => 0
  | c :: cs, inWord =>
    if c.isWhitespace then wordCountAux cs false
    else (if inWord then 0 else 1) + wordCountAux cs true

/-- Modelled from the spec: word count = number of maximal non-whitespace runs. -/
def countWords (s : String) : Nat :=
  wordCountAux s.data false

/-- Split a character list at every occurrence of `sep`
(like `String.split` / JavaScript `split` on a single character:
adjacent separators yield empty pieces). -/
def splitOnChar (sep : Char) : List Char → List (List Char)
  | [] => [[]]
  | c :: cs =>
    let rest := splitOnChar sep cs
    if c = sep then [] :: rest
    else
      match rest with
      | [] => [[c]]
      | w :: ws => (c :: w) :: ws

/-- Split a character list at every whitespace character. -/
def splitOnWhitespaceChar : List Char → List (List Char)
  | [] => [[]]
  | c :: cs =>
    let rest := splitOnWhitespaceChar cs
    if c.isWhitespace then [] :: rest
    else
      match rest with
      | [] => [[c]]
      | w :: ws => (c :: w) :: ws

/-- Trim whitespace from both ends of a character list
(JavaScript `String.prototype.trim`). -/
def trimChars (l : List Char) : List Char :=
  ((l.dropWhile Char.isWhitespace).reverse.dropWhile Char.isWhitespace).reverse

/-- The inline word count of the director form
(`field.value.trim().split(/\s+/).filter(Boolean).length`,
`ApplicationForm.tsx` line 2086), embedded at the character level: the regex
split on `\s+` is a split at whitespace characters followed by dropping the
empty pieces. -/
def inlineWordCount (s : String) : Nat :=
  ((splitOnWhitespaceChar (trimChars s.data)).filter (fun w => w ≠ [])).length

/-- A calendar date (year, month, day); `today` is threaded explicitly. -/
structure Date where
  year : Int
  month : Nat
  day : Nat
deriving DecidableEq, Repr

/-- Modelled from the spec: `calculateAge` lives in the missing
`utils/formUtils.ts`.  Per §4.3/§8(2) the age is `today.year - birth.year`,
decremented by one if the birth month/day has not yet occurred this year. -/
def calculateAge (birth today : Date) : Int :=
  if today.month < birth.month ∨ (today.month = birth.month ∧ today.day < birth.day)
  then today.year - birth.year - 1
  else today.year - birth.year

/-- Read a non-empty list of decimal digits as a natural number. -/
def digitsToNat? (l : List Char) : Option Nat :=
  if l ≠ [] ∧ l.all Char.isDigit then
    some (l.foldl (fun n c => 10 * n + (c.toNat - 48)) 0)
  else none

/-- Parse an ISO `YYYY-MM-DD` date-input value. -/
def parseDate (s : String) : Option Date :=
  match splitOnChar '-' s.data with
  | [y, m, d] =>
    match digitsToNat? y, digitsToNat? m, digitsToNat? d with
    | some y, some m, some d => some ⟨(y : Int), m, d⟩
    | _, _, _ => none
  | _ => none

/-- Modelled from the spec: the string-level age used by the derived `age`
field; an unparseable date behaves as JavaScript `NaN`. -/
def calculateAgeStr (today : Date) (dob : String) : String :=
  match parseDate dob with
  | some b => toString (calculateAge b today)
  | none => "NaN"

/-- Modelled from the spec: `isAgeInRange(dob, lo, hi)` from the missing
`utils/formUtils.ts` — the derived age must lie in `[lo, hi]` inclusive;
an unparseable date is out of range. -/
def isAgeInRange (today : Date) (dob : String) (lo hi : Int) : Bool :=
  match parseDate dob with
  | some b => lo ≤ calculateAge b today && calculateAge b today ≤ hi
  | none => false

/-- A string whose trimmed value is empty, i.e. every character is
whitespace. -/
def isBlank (v : String) : Bool :=
  v.data.all Char.isWhitespace

/-- Required-text rule (§4.1): fails when the trimmed value is empty. -/
def req (v : String) (fld msg : String) : List FormError :=
  if isBlank v then [⟨fld, msg⟩] else []

/-- Boolean-must-be-true rule (§4.1) for the consent checkboxes. -/
def mustTrue (b : Bool) (fld msg : String) : List FormError :=
  if b then [] else [⟨fld, msg⟩]

/-- Presence-of-asset rule (§4.1) for the mandatory photo slots. -/
def photoReq (p : Option AppFile) (fld msg : String) : List FormError :=
  match p with
  | some _ => []
  | none => [⟨fld, msg⟩]

/-- Modelled from the spec: a standard email-address shape (one `@`,
non-empty local part, domain containing a dot). -/
def isValidEmail (s : String) : Bool :=
  match splitOnChar '@' s.data with
  | [l, d] => !l.isEmpty && !d.isEmpty && d.contains '.'
  | _ => false

/-- Email rule (§4.1): required message when empty, a distinct format
message when non-empty but malformed. -/
def emailRule (v : String) : List FormError :=
  if isBlank v then [⟨"email", "Email is required"⟩]
  else if isValidEmail v then [] else [⟨"email", "Please enter a valid email address"⟩]

/-- Word-count ceiling rule (§4.1): at most 500 words. -/
def wordLimit (v : String) (fld msg : String) : List FormError :=
  if 500 < countWords v then [⟨fld, msg⟩] else []

/-- Modelled from the spec: `validateApplicationForm(record, sectionId)` lives
in the missing `utils/formUtils.ts`.  Per §4.1/§4.2 it runs the rules of the
given section in registration order (required text for the listed fields,
email format, 500-word ceilings, must-be-true consent boxes, mandatory photo
presence); unknown sections and rule-free sections yield the empty list.
Section field ownership follows the fields each section renders. -/
def validateApplicationForm (r : ApplicationFormData) (sectionId : String) : List FormError :=
  match sectionId with
  | "eligibility" =>
    req r.dateOfBirth "dateOfBirth" "Date of birth is required" ++
    mustTrue r.isEligible "isEligible" "You must confirm you meet the eligibility requirements" ++
    mustTrue r.hasValidPassport "hasValidPassport" "You must have a valid international passport" ++
    mustTrue r.canTravel "canTravel" "You must be available to travel" ++
    mustTrue r.isGoodHealth "isGoodHealth" "You must confirm you are in good health" ++
    mustTrue r.willFollowRules "willFollowRules" "You must commit to follow the rules"
  | "contact" =>
    req r.firstName "firstName" "First name is required" ++
    req r.lastName "lastName" "Last name is required" ++
    emailRule r.email ++
    req r.phone "phone" "Phone number is required" ++
    req r.city "city" "City is required" ++
    req r.country "country" "Country is required"
  | "personal" =>
    req r.ethnicity "ethnicity" "Ethnicity is required" ++
    req r.representCountry "representCountry" "Country to represent is required" ++
    req r.height "height" "Height is required" ++
    req r.weight "weight" "Weight is required"
  | "background" =>
    req r.experience "experience" "Experience is required" ++
    req r.education "education" "Education is required" ++
    req r.skills "skills" "Skills are required"
  | "motivation" =>
    req r.motivation "motivation" "Motivation is required" ++
    req r.goals "goals" "Goals are required" ++
    req r.hearAboutUs "hearAboutUs" "This field is required"
  | "business" =>
    req r.strategy "strategy" "Strategy is required"
  | "photos" =>
    photoReq (r.photos .headShot1) "headShot1" "Head shot 1 is required" ++
    photoReq (r.photos .headShot2) "headShot2" "Head shot 2 is required" ++
    photoReq (r.photos .bodyShot1) "bodyShot1" "Body shot 1 is required" ++
    photoReq (r.photos .bodyShot2) "bodyShot2" "Body shot 2 is required"
  | "profile" =>
    req r.bio "bio" "Bio is required" ++
    wordLimit r.bio "bio" "Bio must be 500 words or less" ++
    req r.socialMedia "socialMedia" "Social media is required"
  | "countryInfo" =>
    req r.countryOverview "countryOverview" "Country overview is required" ++
    wordLimit r.countryOverview "countryOverview" "Country overview must be 500 words or less" ++
    req r.culturalInfo "culturalInfo" "Cultural information is required" ++
    wordLimit r.culturalInfo "culturalInfo" "Cultural information must be 500 words or less"
  | _ => []

/-- The component state relevant to the wizard: active section id, the
record, the displayed errors, the terms-agreement flag and the
submission-in-flight flag (`useState` hooks, `ApplicationForm.tsx`
lines 36, 96–99). -/
structure WizardState where
  currentSection : String
  formData : ApplicationFormData
  errors : List FormError
  agreeTerms : Bool
  isSubmitting : Bool

/-- Initial wizard state: first section, empty record, no errors. -/
def initWizard : WizardState where
  currentSection := "eligibility"
  formData := initFormData
  errors := []
  agreeTerms := false
  isSubmitting := false

/-- Global notifications (`toast.error` / `toast.success` calls). -/
inductive ToastKind
  | success | error
deriving DecidableEq, Repr

/-- The age-range error pushed by `handleNext` on the eligibility section
(`ApplicationForm.tsx` lines 151–158). -/
def ageRangeError : FormError :=
  ⟨"dateOfBirth", "You must be between 18 and 35 years old to participate"⟩

/-- The error list `handleNext` computes for the current section:
`validateApplicationForm` plus, on the eligibility section when a date of
birth is present, the additional `isAgeInRange` check
(`ApplicationForm.tsx` lines 146–158). -/
def sectionCheckErrors (today : Date) (r : ApplicationFormData) (sectionId : String) :
    List FormError :=
  let sectionErrors := validateApplicationForm r sectionId
  if sectionId = "eligibility" ∧ r.dateOfBirth ≠ "" then
    if isAgeInRange today r.dateOfBirth 18 35 then sectionErrors
    else sectionErrors ++ [ageRangeError]
  else sectionErrors

/-- The handler `handleNext` (`ApplicationForm.tsx` lines 146–169): validate the current
section (with the added eligibility age check), display the result, and move
one section forward exactly when the result is empty and a next section
exists. -/
def handleNext (today : Date) (st : WizardState) : WizardState :=
  let sectionErrors := sectionCheckErrors today st.formData st.currentSection
  let st1 : WizardState := { st with errors := sectionErrors }
  if sectionErrors = [] then
    let currentIndex := currentIndexOf st.currentSection
    if currentIndex < (formSections.length : Int) - 1 then
      match formSections.get? (currentIndex + 1).toNat with
      | some next => { st1 with currentSection := next.id }
      | none => st1
    else st1
  else st1

/-- The handler `handlePrevious` (`ApplicationForm.tsx` lines 171–177): move one section
backward when not on the first section; nothing else is touched. -/
def handlePrevious (st : WizardState) : WizardState :=
  let currentIndex := currentIndexOf st.currentSection
  if 0 < currentIndex then
    match formSections.get? (currentIndex - 1).toNat with
    | some prev => { st with currentSection := prev.id }
    | none => st
  else st

/-- The terms error pushed by `handleSubmit` when the terms-agreement flag is
false (`ApplicationForm.tsx` lines 190–192). -/
def termsError : FormError :=
  ⟨"terms", "You must agree to the terms and conditions"⟩

/-- The aggregate error list `handleSubmit` builds: every section except
`review` and `terms` validated against the full record in section order,
then the terms error when `agreeTerms` is false
(`ApplicationForm.tsx` lines 181–192). -/
def submitAllErrors (st : WizardState) : List FormError :=
  let base := formSections.foldl
    (fun acc sec =>
      if sec.id ≠ "review" ∧ sec.id ≠ "terms" then
        acc ++ validateApplicationForm st.formData sec.id
      else acc) []
  if st.agreeTerms then base else base ++ [termsError]

/-- The first section whose re-run validation shares a field with the
aggregate error list (`formSections.find` in `handleSubmit`,
`ApplicationForm.tsx` lines 210–212). -/
def firstErrorSection (r : ApplicationFormData) (allErrors : List FormError) :
    Option FormSection :=
  formSections.find? (fun sec =>
    allErrors.any (fun err =>
      (validateApplicationForm r sec.id).any (fun e => e.field = err.field)))

/-- The handler `handleSubmit` (`ApplicationForm.tsx` lines 179–221): aggregate all
section errors plus the terms rule; display them; when empty, enter the
submitting state (the success toast only fires when the simulated call
completes later); when non-empty, jump to the first section owning a failing
field and raise one error toast — but only when such a section exists and
differs from the current one.  Returns the new state and the toasts raised
synchronously. -/
def handleSubmit (st : WizardState) : WizardState × List ToastKind :=
  let allErrors := submitAllErrors st
  let st1 : WizardState := { st with errors := allErrors }
  if allErrors = [] then
    ({ st1 with isSubmitting := true }, [])
  else
    match firstErrorSection st.formData allErrors with
    | some sec =>
      if sec.id ≠ st.currentSection then
        ({ st1 with currentSection := sec.id }, [ToastKind.error])
      else (st1, [])
    | none => (st1, [])

/-- A click on the desktop section-navigation button of the section at index
`idx` (`ApplicationForm.tsx` lines 256–265): the section changes only when
`idx` is at most the current section's index. -/
def sectionButtonClick (st : WizardState) (idx : Nat) : WizardState :=
  match formSections.get? idx with
  | some sec =>
    if (idx : Int) ≤ currentIndexOf st.currentSection then
      { st with currentSection := sec.id }
    else st
  | none => st

/-- A change of the mobile section dropdown (`ApplicationForm.tsx` lines
301–313): `onChange` sets the current section unconditionally. -/
def selectSectionChange (st : WizardState) (id : String) : WizardState :=
  { st with currentSection := id }

/-- A click on the Previous button (`CardFooter`, `ApplicationForm.tsx` lines
1532–1542): the button is rendered (and always enabled) whenever the current
section is not the first; it calls `handlePrevious`. -/
def previousClick (st : WizardState) : WizardState :=
  if st.currentSection ≠ "eligibility" then handlePrevious st else st

/-- A click on the Submit button (`CardFooter`, `ApplicationForm.tsx` lines
1546–1572): the button is rendered only on the review section and is disabled
while a submission is outstanding (`disabled={isSubmitting}`). -/
def submitClick (st : WizardState) : WizardState × List ToastKind :=
  if st.currentSection = "review" ∧ st.isSubmitting = false then handleSubmit st
  else (st, [])

/-- The handler `handleFileChange` (`ApplicationForm.tsx` lines 136–140): store the first
file of a non-empty file list into the given photo slot; a null or empty list
changes nothing. -/
def handleFileChange (field : PhotoField) (files : Option (List AppFile))
    (r : ApplicationFormData) : ApplicationFormData :=
  match files with
  | some (f :: _) => { r with photos := fun g => if g = field then some f else r.photos g }
  | _ => r

/-- JavaScript `Array.prototype.join(sep)` on a list of strings. -/
def jsJoin (sep : String) : List String → String
  | [] => ""
  | [x] => x
  | x :: xs => x ++ sep ++ jsJoin sep xs

/-- The derived full name: `[firstName, middleName, lastName].filter(Boolean).join(' ')`
(`useEffect`, `ApplicationForm.tsx` lines 110–118). -/
def deriveFullName (r : ApplicationFormData) : ApplicationFormData :=
  { r with fullName :=
      jsJoin " " (([r.firstName, r.middleName, r.lastName]).filter (fun s => s ≠ "")) }

/-- The derived age: recomputed from `dateOfBirth` only when it is non-empty
(`useEffect`, `ApplicationForm.tsx` lines 121–126 — note there is no
else-branch clearing `age`). -/
def deriveAge (today : Date) (r : ApplicationFormData) : ApplicationFormData :=
  if r.dateOfBirth ≠ "" then { r with age := calculateAgeStr today r.dateOfBirth }
  else r

/-- The three editable name parts feeding the `fullName` effect. -/
inductive NameField
  | first | middle | last
deriving DecidableEq, Repr

/-- Write one name part (the `handleFieldChange` state update). -/
def setNameField (f : NameField) (v : String) (r : ApplicationFormData) :
    ApplicationFormData :=
  match f with
  | .first => { r with firstName := v }
  | .middle => { r with middleName := v }
  | .last => { r with lastName := v }

/-- An edit of a name part followed by the `fullName` effect (the effect's
dependency array is exactly the three name parts). -/
def editNameField (f : NameField) (v : String) (r : ApplicationFormData) :
    ApplicationFormData :=
  deriveFullName (setNameField f v r)

/-- An edit of `dateOfBirth` followed by the `age` effect (the effect's
dependency array is exactly `dateOfBirth`). -/
def editDateOfBirth (today : Date) (v : String) (r : ApplicationFormData) :
    ApplicationFormData :=
  deriveAge today { r with dateOfBirth := v }

/-- The first character is a space. -/
def startsWithSpace : List Char → Bool
  | c :: _ => c == ' '
  | [] => false

/-- The last character is a space. -/
def endsWithSpace : List Char → Bool
  | [] => false
  | [c] => c == ' '
  | _ :: rest => endsWithSpace rest

/-- Two consecutive space characters somewhere in the list. -/
def hasDoubleSpace : List Char → Bool
  | [] => false
  | [_] => false
  | c1 :: c2 :: rest => (c1 == ' ' && c2 == ' ') || hasDoubleSpace (c2 :: rest)

/-- The spec's shape requirement on the derived full name: no leading space,
no trailing space, no two consecutive spaces. -/
def wellSpaced (s : String) : Bool :=
  !startsWithSpace s.data && !endsWithSpace s.data && !hasDoubleSpace s.data

/-- The id of the section one step before `a` in `formSections` (mirrors the
index arithmetic of `handlePrevious`); `none` when there is no previous
section or `a` is not a section id. -/
def prevIdOf (a : String) : Option String :=
  if 0 < currentIndexOf a then
    (formSections.get? (currentIndexOf a - 1).toNat).map FormSection.id
  else none

/-- The id of the section one step after `a` in `formSections` (mirrors the
index arithmetic of `handleNext`). -/
def nextIdOf (a : String) : Option String :=
  if currentIndexOf a < (formSections.length : Int) - 1 then
    (formSections.get? (currentIndexOf a + 1).toNat).map FormSection.id
  else none

/-- A fixed evaluation date used for concrete instances: 2024-06-15. -/
def today0 : Date := ⟨2024, 6, 15⟩

/-- A record passing every section's validation (used to isolate single
failures in concrete scenarios). -/
def validRecord : ApplicationFormData :=
  { initFormData with
    firstName := "Jane", lastName := "Doe", email := "jane@example.com",
    phone := "1234567", city := "Paris", country := "France",
    ethnicity := "X", representCountry := "France", height := "170", weight := "60",
    experience := "some experience", education := "some education", skills := "some skills",
    motivation := "my motivation", goals := "my goals", hearAboutUs := "online",
    strategy := "my strategy", dateOfBirth := "2000-06-15",
    bio := "a short bio", socialMedia := "@jane",
    countryOverview := "an overview", culturalInfo := "some culture",
    photos := fun _ => some ⟨"photo.jpg"⟩,
    isEligible := true, hasValidPassport := true, canTravel := true,
    isGoodHealth := true, willFollowRules := true }

/-- Review-section state with a fully valid record but the terms box
unchecked: the aggregate submit error list is exactly the terms error. -/
def stTermsOnly : WizardState :=
  { initWizard with formData := validRecord, agreeTerms := false, currentSection := "review" }

/-- Review-section state failing exactly the contact email and the business
strategy required checks (the spec's §8(6) scenario). -/
def stTwoSectionFail : WizardState :=
  { initWizard with
    formData := { validRecord with email := "", strategy := "" },
    agreeTerms := true, currentSection := "review" }

/-- A state on the contact section with a displayed error (for the retreat
behaviour). -/
def stContactErr : WizardState :=
  { initWizard with currentSection := "contact", errors := [⟨"someField", "boom"⟩] }

/-- Review-section state with a submission outstanding. -/
def stSubmitting : WizardState :=
  { initWizard with
    formData := validRecord, agreeTerms := true,
    currentSection := "review", isSubmitting := true }

/-- The record after entering a date of birth (age derived as "24" at
`today0`). -/
def rAge24 : ApplicationFormData :=
  editDateOfBirth today0 "2000-06-15" initFormData

/-! ## Helper lemmas -/

/-- The handler `handlePrevious` touches only the section pointer. -/
lemma handlePrevious_frame (st : WizardState) :
    (handlePrevious st).errors = st.errors ∧ (handlePrevious st).formData = st.formData ∧
    (handlePrevious st).agreeTerms = st.agreeTerms ∧
    (handlePrevious st).isSubmitting = st.isSubmitting := by
  unfold handlePrevious
  by_cases h : 0 < currentIndexOf st.currentSection <;> simp [h]
  split <;> simp

/-- The section pointer after `handlePrevious`, expressed through `prevIdOf`. -/
lemma handlePrevious_currentSection (st : WizardState) :
    (handlePrevious st).currentSection =
      match prevIdOf st.currentSection with
      | some b => b
      | none => st.currentSection := by
  unfold handlePrevious prevIdOf
  by_cases h : 0 < currentIndexOf st.currentSection <;> simp [h]
  split <;> rename_i heq <;> simp [heq]

/-- Rewrites `handleNext` as a case split on the computed section errors and `nextIdOf`. -/
lemma handleNext_cases (today : Date) (st : WizardState) :
    handleNext today st =
      (if sectionCheckErrors today st.formData st.currentSection = [] then
        { st with
          errors := [],
          currentSection :=
            match nextIdOf st.currentSection with
            | some b => b
            | none => st.currentSection }
      else { st with errors := sectionCheckErrors today st.formData st.currentSection }) := by
  unfold handleNext nextIdOf
  by_cases h : sectionCheckErrors today st.formData st.currentSection = [] <;> simp [h]
  by_cases h2 : currentIndexOf st.currentSection < (formSections.length : Int) - 1 <;>
    simp [h2]
  split <;> rename_i heq <;> simp [heq]

/-- Appending a trailing space never changes the scan count. -/
lemma wordCountAux_append_space : ∀ (l : List Char) (b : Bool),
    wordCountAux (l ++ [' ']) b = wordCountAux l b
  | [], b => by simp [wordCountAux]
  | c :: l, b => by
    by_cases h : c.isWhitespace <;>
      simp [wordCountAux, h, wordCountAux_append_space l]

/-- Collapsing one space of a double space never changes the scan count. -/
lemma wordCountAux_collapse : ∀ (l₁ l₂ : List Char) (b : Bool),
    wordCountAux (l₁ ++ ' ' :: ' ' :: l₂) b = wordCountAux (l₁ ++ ' ' :: l₂) b
  | [], l₂, b => by simp [wordCountAux]
  | c :: l₁, l₂, b => by
    by_cases h : c.isWhitespace <;>
      simp [wordCountAux, h, wordCountAux_collapse l₁ l₂]

/-- Claim C9. The word-counting function counts maximal non-whitespace runs:
it is insensitive to leading and trailing whitespace and to collapsing a run
of spaces, `countWords "  a  b   c "` and `countWords "a b c"` are both `3`,
and the inline count of the director form agrees on these inputs.  (Both
counts are pure Lean functions, so the count for a fixed input is the same on
every call by definition.) -/
theorem C9_word_count :
    countWords "  a  b   c " = 3 ∧ countWords "a b c" = 3 ∧
    inlineWordCount "  a  b   c " = 3 ∧ inlineWordCount "a b c" = 3 ∧
    (∀ s : String, countWords (" " ++ s) = countWords s) ∧
    (∀ s : String, countWords (s ++ " ") = countWords s) ∧
    (∀ s t : String, countWords (s ++ "  " ++ t) = countWords (s ++ " " ++ t)) := by
  refine ⟨by decide, by decide, by decide, by decide, ?_, ?_, ?_⟩
  · intro s
    show wordCountAux ((" " ++ s).data) false = _
    rw [String.data_append]
    show wordCountAux (' ' :: s.data) false = _
    simp [wordCountAux, show (' ').isWhitespace = true from rfl]
    rfl
  · intro s
    show wordCountAux ((s ++ " ").data) false = _
    rw [String.data_append]
    exact wordCountAux_append_space s.data false
  · intro s t
    show wordCountAux ((s ++ "  " ++ t).data) false = wordCountAux ((s ++ " " ++ t).data) false
    rw [String.data_append, String.data_append, String.data_append, String.data_append]
    show wordCountAux ((s.data ++ [' ', ' ']) ++ t.data) false =
      wordCountAux ((s.data ++ [' ']) ++ t.data) false
    rw [List.append_assoc, List.append_assoc]
    exact wordCountAux_collapse s.data t.data false

/-- Claim C10. `handleFileChange`: a null or empty file list leaves the record
unchanged; a non-empty list stores exactly its first file in the chosen slot
and leaves every other photo slot and every non-photo field unchanged. -/
theorem C10_file_change (r : ApplicationFormData) (fld : PhotoField) :
    handleFileChange fld none r = r ∧
    handleFileChange fld (some []) r = r ∧
    ∀ (f : AppFile) (rest : List AppFile),
      (handleFileChange fld (some (f :: rest)) r).photos fld = some f ∧
      (∀ g, g ≠ fld → (handleFileChange fld (some (f :: rest)) r).photos g = r.photos g) ∧
      { handleFileChange fld (some (f :: rest)) r with photos := r.photos } = r := by
  refine ⟨rfl, rfl, fun f rest => ⟨by simp [handleFileChange], fun g hg => ?_, rfl⟩⟩
  simp [handleFileChange, hg]

/-- Claim C10 witness: concrete instance of `C10_file_change` on the initial
record and the first head-shot slot. -/
theorem C10_file_change_witness :
    handleFileChange .headShot1 none initFormData = initFormData ∧
    (handleFileChange .headShot1 (some [⟨"a.jpg"⟩]) initFormData).photos .headShot1 =
      some ⟨"a.jpg"⟩ ∧
    (handleFileChange .headShot1 (some [⟨"a.jpg"⟩]) initFormData).photos .bodyShot1 =
      initFormData.photos .bodyShot1 :=
  have h := C10_file_change initFormData .headShot1
  ⟨h.1, (h.2.2 ⟨"a.jpg"⟩ []).1, (h.2.2 ⟨"a.jpg"⟩ []).2.1 .bodyShot1 (by decide)⟩

/-- Claim C5 counterexample. The claim says an edit setting `dateOfBirth` to
the empty string clears the derived age; in the code the `age` effect has no
else-branch, so after such an edit `age` still holds the stale value `"24"`
computed from the previous date of birth. -/
theorem C5_counterexample :
    rAge24.age = "24" ∧
    (editDateOfBirth today0 "" rAge24).dateOfBirth = "" ∧
    (editDateOfBirth today0 "" rAge24).age = "24" ∧
    ¬ (editDateOfBirth today0 "" rAge24).age = "" := by decide

/-- Claim C5 (amended). After an edit of `dateOfBirth`: if the new value is
empty the derived `age` retains its previous value (it is not cleared); if it
is non-empty, `age` is recomputed from the new value as whole calendar years,
decremented when the birth month/day has not yet occurred (spec §8(2)
instances: born 2000-06-15, age is 23 on 2024-06-14 and 24 on 2024-06-15). -/
theorem C5_age_after_edit (today : Date) (r : ApplicationFormData) (v : String) :
    (v = "" → (editDateOfBirth today v r).age = r.age) ∧
    (v ≠ "" → (editDateOfBirth today v r).age = calculateAgeStr today v) ∧
    calculateAge ⟨2000, 6, 15⟩ ⟨2024, 6, 14⟩ = 23 ∧
    calculateAge ⟨2000, 6, 15⟩ ⟨2024, 6, 15⟩ = 24 := by
  refine ⟨?_, ?_, by decide, by decide⟩
  · intro h
    simp [editDateOfBirth, deriveAge, h]
  · intro h
    simp [editDateOfBirth, deriveAge, h]

/-- Claim C5 witness: `C5_age_after_edit` applied at `today0` with an
empty-string edit on `rAge24` and a non-empty edit on the initial record. -/
theorem C5_age_after_edit_witness :
    (editDateOfBirth today0 "" rAge24).age = rAge24.age ∧
    (editDateOfBirth today0 "1990-01-01" initFormData).age =
      calculateAgeStr today0 "1990-01-01" :=
  ⟨(C5_age_after_edit today0 rAge24 "").1 rfl,
   (C5_age_after_edit today0 initFormData "1990-01-01").2.1 (by decide)⟩

/-- Claim C2. From the first section, the desktop section button of the review
section (index 10 > 0) is a silent no-op, but the mobile dropdown change
handler sets the active section unconditionally: selecting `review` moves the
wizard forward past every validation. -/
theorem C2_forward_jump (st : WizardState) :
    (sectionButtonClick initWizard 10).currentSection = "eligibility" ∧
    (selectSectionChange initWizard "review").currentSection = "review" ∧
    currentIndexOf "eligibility" = 0 ∧ currentIndexOf "review" = 10 ∧
    (selectSectionChange st "review").currentSection = "review" := by
  refine ⟨by decide, by decide, by decide, by decide, rfl⟩

/-- Claim C8 counterexample. With a submission outstanding from the review
section, the Previous button stays enabled and `handlePrevious` is not
guarded by `isSubmitting`: clicking it moves the active section back to
`countryInfo`, mutating the state during `Submitting`. -/
theorem C8_counterexample :
    stSubmitting.isSubmitting = true ∧
    stSubmitting.currentSection = "review" ∧
    (previousClick stSubmitting).currentSection = "countryInfo" ∧
    (previousClick stSubmitting).isSubmitting = true := by decide

/-- Claim C8 (amended). While `isSubmitting` is set, a click on the submit
control is a complete no-op (the button is disabled), so a second submit
attempt is rejected; but retreat is not guarded: from the review section the
Previous click moves the active section back to `countryInfo` even during
submission. -/
theorem C8_submitting_guard (st : WizardState) (hsub : st.isSubmitting = true) :
    submitClick st = (st, []) ∧
    (st.currentSection = "review" → (previousClick st).currentSection = "countryInfo") := by
  constructor
  · simp [submitClick, hsub]
  · intro hcur
    have h2 : prevIdOf "review" = some "countryInfo" := by decide
    simp [previousClick, hcur, handlePrevious_currentSection, h2]

/-- Claim C8 witness: `C8_submitting_guard` at the concrete submitting state. -/
theorem C8_submitting_guard_witness :
    submitClick stSubmitting = (stSubmitting, []) ∧
    (previousClick stSubmitting).currentSection = "countryInfo" :=
  ⟨(C8_submitting_guard stSubmitting rfl).1, (C8_submitting_guard stSubmitting rfl).2 rfl⟩

/-- Claim C4 counterexample. The claim says retreat clears the displayed error
list; `handlePrevious` only moves the section pointer, so after retreating
from `contact` the previously displayed error is still shown. -/
theorem C4_counterexample :
    stContactErr.errors = [⟨"someField", "boom"⟩] ∧
    (handlePrevious stContactErr).currentSection = "eligibility" ∧
    (handlePrevious stContactErr).errors = [⟨"someField", "boom"⟩] ∧
    ¬ (handlePrevious stContactErr).errors = [] := by decide

/-- Claim C4 (amended). From any non-first section, retreat unconditionally
moves the active section exactly one step backward without running any
validation, and leaves the record *and the displayed error list* unchanged
(the error list is not cleared); in particular retreating never produces a
new error list. -/
theorem C4_retreat (st : WizardState)
    (hmem : st.currentSection ∈ formSections.map FormSection.id)
    (hfirst : st.currentSection ≠ "eligibility") :
    currentIndexOf (handlePrevious st).currentSection =
      currentIndexOf st.currentSection - 1 ∧
    (handlePrevious st).errors = st.errors ∧
    (handlePrevious st).formData = st.formData := by
  obtain ⟨he, hf, -, -⟩ := handlePrevious_frame st
  refine ⟨?_, he, hf⟩
  rw [handlePrevious_currentSection]
  revert hfirst
  set a := st.currentSection with ha
  clear_value a
  fin_cases hmem <;> decide

/-- Claim C4 witness: `C4_retreat` at the concrete state on `contact` with a
displayed error. -/
theorem C4_retreat_witness :
    currentIndexOf (handlePrevious stContactErr).currentSection =
      currentIndexOf stContactErr.currentSection - 1 ∧
    (handlePrevious stContactErr).errors = stContactErr.errors ∧
    (handlePrevious stContactErr).formData = stContactErr.formData :=
  C4_retreat stContactErr (by decide) (by decide)

/-- Claim C3. From any non-last section, `handleNext` computes the section
check (validator plus the eligibility-only age check): when it is empty the
active section moves exactly one step forward in the section order and the
displayed errors become empty; when it is non-empty the section stays put and
the displayed errors equal the check result; the record is never changed. -/
theorem C3_advance (today : Date) (st : WizardState)
    (hmem : st.currentSection ∈ formSections.map FormSection.id)
    (hlast : st.currentSection ≠ "review") :
    (sectionCheckErrors today st.formData st.currentSection = [] →
      currentIndexOf (handleNext today st).currentSection =
        currentIndexOf st.currentSection + 1 ∧
      (handleNext today st).errors = []) ∧
    (sectionCheckErrors today st.formData st.currentSection ≠ [] →
      (handleNext today st).currentSection = st.currentSection ∧
      (handleNext today st).errors = sectionCheckErrors today st.formData st.currentSection) ∧
    (handleNext today st).formData = st.formData := by
  rw [handleNext_cases]
  by_cases h : sectionCheckErrors today st.formData st.currentSection = []
  · simp [h]
    revert hlast
    set a := st.currentSection with ha
    clear_value a
    fin_cases hmem <;> decide
  · simp [h]

/-- Claim C3 witness: `C3_advance` at `today0` — the valid record advances from
`eligibility` (check empty), the empty initial record stays (check
non-empty). -/
theorem C3_advance_witness :
    (currentIndexOf (handleNext today0 { initWizard with formData := validRecord }).currentSection =
      currentIndexOf "eligibility" + 1 ∧
     (handleNext today0 { initWizard with formData := validRecord }).errors = []) ∧
    ((handleNext today0 initWizard).currentSection = "eligibility" ∧
     (handleNext today0 initWizard).errors =
       sectionCheckErrors today0 initWizard.formData "eligibility") := by
  constructor
  · exact (C3_advance today0 { initWizard with formData := validRecord }
      (by decide) (by decide)).1 (by decide)
  · exact (C3_advance today0 initWizard (by decide) (by decide)).2.1 (by decide)

/-- Claim C7. The age-range check is evaluated only on the eligibility section
and only when a date of birth is present; it is appended after (additively
to) the section's other errors; it passes exactly when the derived age lies
in `[18, 35]` inclusive; its error is keyed to `dateOfBirth` with a message
naming both bounds; at `today0` (2024-06-15) ages 18 and 35 pass while 17 and
36 fail. -/
theorem C7_age_gate (today : Date) (r : ApplicationFormData)
    (hdob : r.dateOfBirth ≠ "") :
    sectionCheckErrors today r "eligibility" =
      validateApplicationForm r "eligibility" ++
        (if isAgeInRange today r.dateOfBirth 18 35 then [] else [ageRangeError]) ∧
    (∀ sid, sid ≠ "eligibility" → sectionCheckErrors today r sid = validateApplicationForm r sid) ∧
    (∀ b, parseDate r.dateOfBirth = some b →
      (isAgeInRange today r.dateOfBirth 18 35 = true ↔
        18 ≤ calculateAge b today ∧ calculateAge b today ≤ 35)) ∧
    ageRangeError = ⟨"dateOfBirth", "You must be between 18 and 35 years old to participate"⟩ ∧
    calculateAge ⟨2006, 6, 15⟩ today0 = 18 ∧ isAgeInRange today0 "2006-06-15" 18 35 = true ∧
    calculateAge ⟨1989, 6, 15⟩ today0 = 35 ∧ isAgeInRange today0 "1989-06-15" 18 35 = true ∧
    calculateAge ⟨2007, 6, 14⟩ today0 = 17 ∧ isAgeInRange today0 "2007-06-14" 18 35 = false ∧
    calculateAge ⟨1988, 6, 15⟩ today0 = 36 ∧ isAgeInRange today0 "1988-06-15" 18 35 = false := by
  refine ⟨?_, ?_, ?_, rfl, by decide, by decide, by decide, by decide,
    by decide, by decide, by decide, by decide⟩
  · simp only [sectionCheckErrors]
    simp [hdob]
    split <;> simp
  · intro sid hsid
    simp [sectionCheckErrors, hsid]
  · intro b hb
    simp [isAgeInRange, hb, decide_eq_true_eq]

/-- Claim C7 witness: `C7_age_gate` at `today0` on the valid record (born
2000-06-15). -/
theorem C7_age_gate_witness :
    sectionCheckErrors today0 validRecord "eligibility" =
      validateApplicationForm validRecord "eligibility" ++
        (if isAgeInRange today0 validRecord.dateOfBirth 18 35 then [] else [ageRangeError]) ∧
    sectionCheckErrors today0 validRecord "contact" =
      validateApplicationForm validRecord "contact" ∧
    (isAgeInRange today0 validRecord.dateOfBirth 18 35 = true ↔
      18 ≤ calculateAge ⟨2000, 6, 15⟩ today0 ∧ calculateAge ⟨2000, 6, 15⟩ today0 ≤ 35) :=
  have h := C7_age_gate today0 validRecord (by decide)
  ⟨h.1, h.2.1 "contact" (by decide), h.2.2.1 ⟨2000, 6, 15⟩ (by decide)⟩

/-- A non-empty prefix decides whether the string starts with a space. -/
lemma startsWithSpace_append (l₁ l₂ : List Char) (h : l₁ ≠ []) :
    startsWithSpace (l₁ ++ l₂) = startsWithSpace l₁ := by
  cases l₁ with
  | nil => exact absurd rfl h
  | cons c l => simp [startsWithSpace]

/-- Unfold `endsWithSpace` one step. -/
lemma endsWithSpace_cons (c : Char) (l : List Char) :
    endsWithSpace (c :: l) = if l = [] then c == ' ' else endsWithSpace l := by
  cases l <;> simp [endsWithSpace]

/-- A non-empty suffix decides whether the string ends with a space. -/
lemma endsWithSpace_append : ∀ (l₁ l₂ : List Char), l₂ ≠ [] →
    endsWithSpace (l₁ ++ l₂) = endsWithSpace l₂
  | [], l₂, _ => by simp
  | c :: l₁, l₂, h => by
    rw [List.cons_append, endsWithSpace_cons, if_neg (by simp [h]),
      endsWithSpace_append l₁ l₂ h]

/-- Double spaces in an append come from either side or the junction. -/
lemma hasDoubleSpace_append : ∀ (l₁ l₂ : List Char),
    hasDoubleSpace (l₁ ++ l₂) =
      (hasDoubleSpace l₁ || hasDoubleSpace l₂ ||
        (endsWithSpace l₁ && startsWithSpace l₂))
  | [], l₂ => by simp [hasDoubleSpace, endsWithSpace]
  | [c], l₂ => by
    cases l₂ with
    | nil => simp [hasDoubleSpace, startsWithSpace, endsWithSpace]
    | cons d l₂ =>
      simp [hasDoubleSpace, startsWithSpace, endsWithSpace, Bool.or_comm]
  | c1 :: c2 :: l₁, l₂ => by
    have ih := hasDoubleSpace_append (c2 :: l₁) l₂
    simp only [List.cons_append] at ih ⊢
    simp only [hasDoubleSpace, ih, endsWithSpace_cons]
    cases l₁ <;> simp [Bool.or_assoc]

/-- A space followed by `l` has a double space iff `l` starts with one or
contains one. -/
lemma hasDoubleSpace_space_cons (l : List Char) :
    hasDoubleSpace (' ' :: l) = (startsWithSpace l || hasDoubleSpace l) := by
  cases l <;> simp [hasDoubleSpace, startsWithSpace]

/-- A string differing from `""` has non-empty character data. -/
lemma data_ne_nil_of_ne_empty (x : String) (h : x ≠ "") : x.data ≠ [] := by
  intro hd
  apply h
  cases x with
  | mk l => cases hd; rfl

/-- Character data of a `jsJoin` with a space separator, non-singleton case. -/
lemma jsJoin_cons_data (x : String) (y : String) (xs : List String) :
    (jsJoin " " (x :: y :: xs)).data = x.data ++ ' ' :: (jsJoin " " (y :: xs)).data := by
  show (x ++ " " ++ jsJoin " " (y :: xs)).data = _
  rw [String.data_append, String.data_append, List.append_assoc]
  rfl

/-- A `jsJoin` starting from a non-empty string is non-empty. -/
lemma jsJoin_ne_nil (x : String) (xs : List String) (h : x ≠ "") :
    (jsJoin " " (x :: xs)).data ≠ [] := by
  cases xs with
  | nil => exact data_ne_nil_of_ne_empty x h
  | cons y ys => rw [jsJoin_cons_data]; simp

/-- Joining non-empty well-spaced parts with single spaces yields a
well-spaced string. -/
lemma jsJoin_wellSpaced : ∀ (parts : List String),
    (∀ p ∈ parts, p ≠ "" ∧ wellSpaced p = true) →
    wellSpaced (jsJoin " " parts) = true
  | [], _ => by decide
  | [x], h => (h x (by simp)).2
  | x :: y :: xs, h => by
    have hx := h x (by simp)
    have hy := h y (by simp)
    have ih := jsJoin_wellSpaced (y :: xs) (fun p hp => h p (by simp [hp]))
    have hne : (jsJoin " " (y :: xs)).data ≠ [] := jsJoin_ne_nil y xs hy.1
    have hxd : x.data ≠ [] := data_ne_nil_of_ne_empty x hx.1
    have hx2 := hx.2
    simp only [wellSpaced, Bool.and_eq_true, Bool.not_eq_true', Bool.not_eq_true] at hx2 ih ⊢
    obtain ⟨⟨hxs, hxe⟩, hxd2⟩ := hx2
    obtain ⟨⟨hjs, hje⟩, hjd⟩ := ih
    rw [jsJoin_cons_data]
    refine ⟨⟨?_, ?_⟩, ?_⟩
    · rw [startsWithSpace_append _ _ hxd]; exact hxs
    · rw [endsWithSpace_append _ _ (by simp), endsWithSpace_cons, if_neg hne]
      exact hje
    · rw [hasDoubleSpace_append, hasDoubleSpace_space_cons, hxd2, hxe, hjs, hjd]
      simp [startsWithSpace]

/-- Claim C6 counterexample. The claim promises no double spaces for *every*
triple; with first name `"a "` (trailing space) and last name `"b"` the
derived full name is `"a  b"`, which contains a double space. -/
theorem C6_counterexample :
    (editNameField .first "a " { initFormData with lastName := "b" }).firstName = "a " ∧
    (editNameField .first "a " { initFormData with lastName := "b" }).lastName = "b" ∧
    (editNameField .first "a " { initFormData with lastName := "b" }).fullName = "a  b" ∧
    hasDoubleSpace (editNameField .first "a " { initFormData with lastName := "b" }).fullName.data
      = true := by decide

/-- Claim C6 (amended). After every edit of a name part, `fullName` equals the
non-empty parts joined by single spaces in first/middle/last order; when
every part is itself free of leading, trailing and double spaces, the result
has no leading, trailing or double spaces (the unrestricted claim fails, see
the counterexample). -/
theorem C6_full_name (r : ApplicationFormData) (f : NameField) (v : String) :
    (editNameField f v r).fullName =
      jsJoin " " ([(editNameField f v r).firstName, (editNameField f v r).middleName,
        (editNameField f v r).lastName].filter (fun s => s ≠ "")) ∧
    ((∀ p ∈ [(editNameField f v r).firstName, (editNameField f v r).middleName,
        (editNameField f v r).lastName], wellSpaced p = true) →
      wellSpaced (editNameField f v r).fullName = true) := by
  have h1 : (editNameField f v r).fullName =
      jsJoin " " ([(editNameField f v r).firstName, (editNameField f v r).middleName,
        (editNameField f v r).lastName].filter (fun s => s ≠ "")) := by
    cases f <;> rfl
  refine ⟨h1, fun hp => ?_⟩
  rw [h1]
  apply jsJoin_wellSpaced
  intro p hp2
  rw [List.mem_filter] at hp2
  refine ⟨by simpa using hp2.2, hp p hp2.1⟩

/-- Claim C6 witness: `C6_full_name` after editing the first name to `"Jane"`
on a record whose last name is `"Doe"`. -/
theorem C6_full_name_witness :
    (editNameField .first "Jane" { initFormData with lastName := "Doe" }).fullName =
      jsJoin " " ([(editNameField .first "Jane" { initFormData with lastName := "Doe" }).firstName,
        (editNameField .first "Jane" { initFormData with lastName := "Doe" }).middleName,
        (editNameField .first "Jane" { initFormData with lastName := "Doe" }).lastName].filter
          (fun s => s ≠ "")) ∧
    wellSpaced (editNameField .first "Jane" { initFormData with lastName := "Doe" }).fullName
      = true :=
  have h := C6_full_name { initFormData with lastName := "Doe" } .first "Jane"
  ⟨h.1, h.2 (by decide)⟩

/-- The review section carries no rules. -/
lemma validateApplicationForm_review (r : ApplicationFormData) :
    validateApplicationForm r "review" = [] := rfl

/-- The terms section carries no record-level rules (the terms-agreement flag
lives outside the record). -/
lemma validateApplicationForm_terms (r : ApplicationFormData) :
    validateApplicationForm r "terms" = [] := rfl

/-- The section found by `firstErrorSection` re-validates to a list sharing a
field with the aggregate, so it can be neither `review` nor `terms`. -/
lemma firstErrorSection_ne (r : ApplicationFormData) (es : List FormError)
    (sec : FormSection) (h : firstErrorSection r es = some sec) :
    sec.id ≠ "review" ∧ sec.id ≠ "terms" := by
  have hp := List.find?_some h
  constructor <;> intro hid <;> rw [hid] at hp
  · rw [validateApplicationForm_review] at hp
    simp at hp
  · rw [validateApplicationForm_terms] at hp
    simp at hp

/-- Claim C1 (amended). `submit()` from the review section: the displayed
errors become the aggregate of every non-review, non-terms section's
validation in section order, with the terms error appended when the
agreement flag is false; the record is unchanged.  When the aggregate is
non-empty, the behaviour splits on `firstErrorSection` (the first section in
order whose validation shares a field with the aggregate): if it exists the
wizard jumps there and issues exactly one global error notification; if no
section owns any failing field (e.g. a terms-only failure) there is no jump
and *no* notification. -/
theorem C1_submit (st : WizardState) (hcur : st.currentSection = "review") :
    (handleSubmit st).1.errors = submitAllErrors st ∧
    (handleSubmit st).1.formData = st.formData ∧
    submitAllErrors st =
      validateApplicationForm st.formData "eligibility" ++
      validateApplicationForm st.formData "contact" ++
      validateApplicationForm st.formData "personal" ++
      validateApplicationForm st.formData "background" ++
      validateApplicationForm st.formData "motivation" ++
      validateApplicationForm st.formData "business" ++
      validateApplicationForm st.formData "photos" ++
      validateApplicationForm st.formData "profile" ++
      validateApplicationForm st.formData "countryInfo" ++
      (if st.agreeTerms then [] else [termsError]) ∧
    (submitAllErrors st ≠ [] →
      (handleSubmit st).1.isSubmitting = st.isSubmitting ∧
      (match firstErrorSection st.formData (submitAllErrors st) with
       | some sec =>
         (handleSubmit st).1.currentSection = sec.id ∧
         (handleSubmit st).2 = [ToastKind.error]
       | none =>
         (handleSubmit st).1.currentSection = "review" ∧ (handleSubmit st).2 = [])) := by
  refine ⟨?_, ?_, ?_, ?_⟩
  · by_cases h : submitAllErrors st = [] <;> simp [handleSubmit, h]
    cases hfe : firstErrorSection st.formData (submitAllErrors st) <;> simp [hfe]
    split <;> simp
  · by_cases h : submitAllErrors st = [] <;> simp [handleSubmit, h]
    cases hfe : firstErrorSection st.formData (submitAllErrors st) <;> simp [hfe]
    split <;> simp
  · by_cases ht : st.agreeTerms = true <;>
      simp only [submitAllErrors, ht, ite_true, ite_false, List.append_nil] <;> rfl
  · intro hne
    cases hfe : firstErrorSection st.formData (submitAllErrors st) with
    | none => simp [handleSubmit, hne, hfe, hcur]
    | some sec =>
      have hneq : sec.id ≠ st.currentSection := by
        rw [hcur]
        exact (firstErrorSection_ne st.formData _ sec hfe).1
      simp [handleSubmit, hne, hfe, hneq]

/-- Claim C1 counterexample. With a fully valid record and only the terms box
unchecked, the aggregate list is non-empty (it is exactly the terms error),
yet `handleSubmit` issues no notification and performs no jump, contradicting
the claim's "whenever the combined list is non-empty … issues exactly one
global error notification". -/
theorem C1_counterexample :
    stTermsOnly.agreeTerms = false ∧
    submitAllErrors stTermsOnly = [termsError] ∧
    (handleSubmit stTermsOnly).1.errors = [termsError] ∧
    (handleSubmit stTermsOnly).2 = [] ∧
    (handleSubmit stTermsOnly).1.currentSection = "review" := by decide

/-- Claim C1 witness: `C1_submit` at the spec's §8(6) scenario — email missing
in `contact`, strategy missing in `business`; the wizard jumps to `contact`
(the earliest offending section) with exactly one error notification. -/
theorem C1_submit_witness :
    (handleSubmit stTwoSectionFail).1.errors = submitAllErrors stTwoSectionFail ∧
    submitAllErrors stTwoSectionFail =
      [⟨"email", "Email is required"⟩, ⟨"strategy", "Strategy is required"⟩] ∧
    firstErrorSection stTwoSectionFail.formData (submitAllErrors stTwoSectionFail) =
      some ⟨"contact", "Contact Information", "2"⟩ ∧
    (handleSubmit stTwoSectionFail).1.currentSection = "contact" ∧
    (handleSubmit stTwoSectionFail).2 = [ToastKind.error] := by
  have h := C1_submit stTwoSectionFail rfl
  have hfe : firstErrorSection stTwoSectionFail.formData (submitAllErrors stTwoSectionFail) =
      some ⟨"contact", "Contact Information", "2"⟩ := by decide
  have h4 := h.2.2.2 (by decide)
  rw [hfe] at h4
  exact ⟨h.1, by decide, hfe, h4.2.1, h4.2.2⟩
